import Mathlib

/-!
Verification of the JamDeck audio engine (src/server/static/app.js) and the
controller firmware (src/firmware/firmware.ino) against its natural-language
specification.  Pure functions of the source are translated directly; the
WebAudio node graph (oscillator / buffer-source / gain objects) is abstracted
to the numeric parameters the code computes and stores, and network fetches
of sample files are assumed to succeed (decoding is out of scope per the
spec).  JavaScript numbers appearing in integer positions are modelled as ℤ,
fractional values as ℚ, and the irrational playback-rate / frequency values
the voice table stores are kept symbolically as `coeff * 2 ^ exponent` pairs.
-/

namespace JamDeck

/-- JavaScript `Math.max` on two numbers, written with an explicit comparison
so that it reduces in the kernel. -/
def jsMax (u v : ℚ) : ℚ := if u ≤ v then v else u

/-- JavaScript `Math.min` on two numbers. -/
def jsMin (u v : ℚ) : ℚ := if v ≤ u then v else u

/-- Embeds `clamp(x, a, b) = Math.max(a, Math.min(b, x))` from app.js. -/
def clamp (x a b : ℚ) : ℚ := jsMax a (jsMin b x)

/-- Scale mode of the key, the two values of `SCALE_INTERVALS` in app.js. -/
inductive Mode
  | major
  | minor
deriving DecidableEq

/-- Instrument selected in the UI (`UI.instrumentSelect.value`).  The code
branches on the strings "guitar" and "flute"; every other value takes the
sine branch, so the third constructor stands for that else-branch. -/
inductive Instrument
  | guitar
  | flute
  | sine
deriving DecidableEq

/-- Embeds the `NOTE_TO_PC` table of app.js (note name to pitch class). -/
def NOTE_TO_PC : List (String × ℤ) :=
  [("C", 0), ("C#", 1), ("Db", 1),
   ("D", 2), ("D#", 3), ("Eb", 3),
   ("E", 4), ("Fb", 4), ("E#", 5),
   ("F", 5), ("F#", 6), ("Gb", 6),
   ("G", 7), ("G#", 8), ("Ab", 8),
   ("A", 9), ("A#", 10), ("Bb", 10),
   ("B", 11), ("Cb", 11), ("B#", 0)]

/-- Embeds `SCALE_INTERVALS` from app.js. -/
def SCALE_INTERVALS : Mode → List ℤ
  | Mode.major => [0, 2, 4, 5, 7, 9, 11]
  | Mode.minor => [0, 2, 3, 5, 7, 8, 10]

/-- Embeds the `names` array inside `midiToNoteName` in app.js. -/
def NOTE_NAMES : List String :=
  ["C", "C#", "D", "Eb", "E", "F", "F#", "G", "Ab", "A", "Bb", "B"]

/-- Embeds `midiToNoteName(midi)` from app.js.  JavaScript `%` is the
truncating remainder (`Int.tmod`) and `Math.floor` of an integer division
is flooring division (`Int.fdiv`). -/
def midiToNoteName (midi : ℤ) : String :=
  let pc := ((Int.tmod midi 12) + 12).tmod 12
  let oct := Int.fdiv midi 12 - 1
  NOTE_NAMES.getD pc.toNat "" ++ toString oct

/-- Embeds the per-instrument register selection inside `degreeToMidi`
(app.js lines 111-127): `(baseOctave, minMidi, maxMidi)`. -/
def registerBounds : Instrument → ℤ × ℤ × ℤ
  | Instrument.guitar => (3, 43, 72)
  | Instrument.flute => (5, 60, 84)
  | Instrument.sine => (4, 48, 84)

/-- Embeds the loop `while (midi < minMidi) midi += 12` of app.js. -/
def bumpUp (minMidi midi : ℤ) : ℤ :=
  if midi < minMidi then bumpUp minMidi (midi + 12) else midi
termination_by (minMidi - midi).toNat
decreasing_by omega

/-- Embeds the loop `while (midi > maxMidi) midi -= 12` of app.js. -/
def bumpDown (maxMidi midi : ℤ) : ℤ :=
  if midi > maxMidi then bumpDown maxMidi (midi - 12) else midi
termination_by (midi - maxMidi).toNat
decreasing_by omega

/-- Embeds `degreeToMidi(degree)` from app.js.  The tonic pitch class
`NOTE_TO_PC[tonic]`, the mode and the instrument are read from ambient UI
state in the source and are explicit parameters here. -/
def degreeToMidi (tonicPc : ℤ) (mode : Mode) (inst : Instrument) (degree : ℤ) : ℤ :=
  let d0 := degree - 1
  let octaveShift := Int.fdiv d0 7
  let within := ((Int.tmod d0 7) + 7).tmod 7
  let interval := (SCALE_INTERVALS mode).getD within.toNat 0
  let b := registerBounds inst
  let midi := b.1 * 12 + tonicPc + interval + 12 * octaveShift
  bumpDown b.2.2 (bumpUp b.2.1 midi)

/-- Embeds the loop `while (target <= base) target += 12` of
`degreeToMidiOffset` in app.js. -/
def liftAbove (base target : ℤ) : ℤ :=
  if target ≤ base then liftAbove base (target + 12) else target
termination_by (base + 1 - target).toNat
decreasing_by omega

/-- Embeds the loop `while (target >= base) target -= 12` of
`degreeToMidiOffset` in app.js. -/
def dropBelow (base target : ℤ) : ℤ :=
  if target ≥ base then dropBelow base (target - 12) else target
termination_by (target + 1 - base).toNat
decreasing_by omega

/-- Embeds `degreeToMidiOffset(degree, offsetSteps)` from app.js. -/
def degreeToMidiOffset (tonicPc : ℤ) (mode : Mode) (inst : Instrument)
    (degree offsetSteps : ℤ) : ℤ :=
  let base := degreeToMidi tonicPc mode inst degree
  let target := degreeToMidi tonicPc mode inst (degree + offsetSteps)
  if offsetSteps > 0 then liftAbove base target
  else if offsetSteps < 0 then dropBelow base target
  else target

/-- Runtime error raised by the JavaScript engine.  `startChord` executes
`root -= 12` on the `const`-declared binding `root`, which throws
`TypeError: Assignment to constant variable`. -/
inductive JsError
  | typeErrorConstAssignment
deriving DecidableEq

/-- Embeds `startChord(degree, velocity)` from app.js (lines 570-595).  The
result carries the chord notes together with the returned
`{midi, note}` pair; the sustained (non-guitar) branch delegates the actual
voice creation to `startSustainedChordForNonGuitar`, so here the data that
call receives is returned.  In the guitar branch the source executes
`root -= 12` where `root` was declared `const`, so the JavaScript engine
throws before any one-shot fires; this is modelled by `Except.error`. -/
def startChord (tonicPc : ℤ) (mode : Mode) (inst : Instrument)
    (degree : ℤ) (velocity : ℚ) : Except JsError (List ℤ × ℤ × String) :=
  let root := degreeToMidi tonicPc mode inst degree
  let third := degreeToMidiOffset tonicPc mode inst degree 2
  let fifth := degreeToMidiOffset tonicPc mode inst degree 4
  if inst = Instrument.guitar then
    Except.error JsError.typeErrorConstAssignment
  else
    let third := if third - root < 4 then third + 12 else third
    let chordNotes := [root, third, fifth]
    let _ := fifth
    let _ := velocity
    Except.ok (chordNotes, root, midiToNoteName root)

/-- Embeds the chord computation at the head of `triggerArp(degree, velocity)`
in app.js (lines 602-608): root, third and fifth with the
`if (third - root < 4) third += 12` correction. -/
def triggerArpChordNotes (tonicPc : ℤ) (mode : Mode) (inst : Instrument)
    (degree : ℤ) : List ℤ :=
  let root := degreeToMidi tonicPc mode inst degree
  let third := degreeToMidiOffset tonicPc mode inst degree 2
  let fifth := degreeToMidiOffset tonicPc mode inst degree 4
  let third := if third - root < 4 then third + 12 else third
  [root, third, fifth]

/-! Sample libraries.  The WAV fetch and decode steps are external services;
every fetch is assumed to succeed, and a decoded buffer is abstracted to its
duration, the only attribute the engine reads. -/

/-- Character class `[A-G]` of the note regexes in app.js. -/
def isNoteLetter (c : Char) : Bool := 'A' ≤ c && c ≤ 'G'

/-- Character class `[A-G]` under the `/i` flag of the guitar regexes. -/
def isNoteLetterCI (c : Char) : Bool := isNoteLetter c.toUpper

/-- Character class `[#b]` under the `/i` flag of the guitar regexes. -/
def isAccidentalCI (c : Char) : Bool := c = '#' || c.toLower = 'b'

/-- Embeds `noteNameToMidi(note)` from app.js: full-string match of the
pattern `[A-G][#b]?[0-9]` anchored on both sides, then the `NOTE_TO_PC`
lookup and `(oct + 1) * 12 + pc`. -/
def noteNameToMidi (note : String) : Option ℤ :=
  let conv := fun (name : List Char) (d : Char) =>
    if d.isDigit then
      (NOTE_TO_PC.lookup (String.mk name)).map
        (fun pc => ((d.toNat : ℤ) - ('0'.toNat : ℤ) + 1) * 12 + pc)
    else none
  match note.toList with
  | [l, d] => if isNoteLetter l then conv [l] d else none
  | [l, a, d] => if isNoteLetter l && (a = '#' || a = 'b') then conv [l, a] d else none
  | _ => none

/-- Attempts the flute pattern (a dot, a note letter, an optional accidental,
a digit, a dot) at the head of the character list, trying the accidental
first as the regex's greedy optional group would. -/
def fluteNoteAt : List Char → Option String
  | '.' :: l :: rest =>
    if isNoteLetter l then
      match rest with
      | a :: d :: c :: _ =>
        if (a = '#' || a = 'b') && d.isDigit && c = '.' then some (String.mk [l, a, d])
        else if a.isDigit && d = '.' then some (String.mk [l, a])
        else none
      | [a, d] => if a.isDigit && d = '.' then some (String.mk [l, a]) else none
      | _ => none
    else none
  | _ => none

/-- Scans left to right for the first position at which the flute note
pattern matches, as JavaScript `String.prototype.match` does. -/
def findFluteNote : List Char → Option String
  | [] => none
  | c :: rest =>
    match fluteNoteAt (c :: rest) with
    | some s => some s
    | none => findFluteNote rest

/-- Embeds `parseFluteNoteFromFilename(filename)` from app.js. -/
def parseFluteNoteFromFilename (filename : String) : Option String :=
  findFluteNote filename.toList

/-- Embeds the `FLUTE_FILES` descriptor list of app.js. -/
def FLUTE_FILES : List String :=
  ["Flute.vib.ff.A4.stereo.wav", "Flute.vib.ff.A5.stereo.wav", "Flute.vib.ff.A6.stereo.wav",
   "Flute.vib.ff.Ab4.stereo.wav", "Flute.vib.ff.Ab5.stereo.wav", "Flute.vib.ff.Ab6.stereo.wav",
   "Flute.vib.ff.B3.stereo.wav", "Flute.vib.ff.B4.stereo.wav", "Flute.vib.ff.B5.stereo.wav", "Flute.vib.ff.B6.stereo.wav",
   "Flute.vib.ff.Bb4.stereo.wav", "Flute.vib.ff.Bb5.stereo.wav", "Flute.vib.ff.Bb6.stereo.wav",
   "Flute.vib.ff.C4.stereo.wav", "Flute.vib.ff.C5.stereo.wav", "Flute.vib.ff.C6.stereo.wav",
   "Flute.vib.ff.D4.stereo.wav", "Flute.vib.ff.D5.stereo.wav", "Flute.vib.ff.D6.stereo.wav",
   "Flute.vib.ff.Db4.stereo.wav", "Flute.vib.ff.Db5.stereo.wav", "Flute.vib.ff.Db6.stereo.wav", "Flute.vib.ff.Db7.stereo.wav",
   "Flute.vib.ff.E4.stereo.wav", "Flute.vib.ff.E5.stereo.wav", "Flute.vib.ff.E6.stereo.wav",
   "Flute.vib.ff.Eb4.stereo.wav", "Flute.vib.ff.Eb5.stereo.wav", "Flute.vib.ff.Eb6.stereo.wav",
   "Flute.vib.ff.F4.stereo.wav", "Flute.vib.ff.F5.stereo.wav", "Flute.vib.ff.F6.stereo.wav",
   "Flute.vib.ff.G4.stereo.wav", "Flute.vib.ff.G5.stereo.wav", "Flute.vib.ff.G6.stereo.wav",
   "Flute.vib.ff.Gb4.stereo.wav", "Flute.vib.ff.Gb5.stereo.wav", "Flute.vib.ff.Gb6.stereo.wav"]

/-- Single-note flute sample: `{ midi, buffer, file }` in app.js, with the
decoded buffer dropped (it is only handed to the audio graph). -/
structure FluteSample where
  midi : ℤ
  file : String
deriving DecidableEq

/-- Embeds `loadFluteSamples` from app.js (lines 186-212) under the
assumption that every fetch succeeds.  The JS `loaded.sort((a, b) => a.midi -
b.midi)` is a stable comparison sort; it is modelled by `insertionSort`
(also stable, and all flute pitches are distinct anyway). -/
def loadFluteSamples : List FluteSample :=
  List.insertionSort (fun a b => a.midi ≤ b.midi)
    (FLUTE_FILES.filterMap fun file =>
      (parseFluteNoteFromFilename file).bind fun note =>
        (noteNameToMidi note).map fun midi => { midi := midi, file := file })

/-- Distance `Math.abs(s.midi - targetMidi)` used by the nearest-sample scan. -/
def fluteDist (targetMidi : ℤ) (s : FluteSample) : ℕ := (s.midi - targetMidi).natAbs

/-- Embeds the scan loop of `findNearestFluteSample`: `best`/`bestDist` are
the running minimum, updated only on strictly smaller distance. -/
def nearestScan (targetMidi : ℤ) : FluteSample → ℕ → List FluteSample → FluteSample
  | best, _, [] => best
  | best, bestDist, s :: rest =>
    let d := fluteDist targetMidi s
    if d < bestDist then nearestScan targetMidi s d rest
    else nearestScan targetMidi best bestDist rest

/-- Embeds `findNearestFluteSample(targetMidi)` from app.js (lines 214-229). -/
def findNearestFluteSample (samples : List FluteSample) (targetMidi : ℤ) :
    Option FluteSample :=
  match samples with
  | [] => none
  | b :: rest => some (nearestScan targetMidi b (fluteDist targetMidi b) rest)

/-- Embeds the `GUITAR_FILES` descriptor list of app.js. -/
def GUITAR_FILES : List String :=
  ["Guitar.ff.sul_E.C5Bb5.wav",
   "Guitar.ff.sul_E.E4B4.wav",
   "Guitar.ff.sulA.A2B2.wav",
   "Guitar.ff.sulA.C3B3.wav",
   "Guitar.ff.sulA.C4E4.wav",
   "Guitar.ff.sulB.B3.wav",
   "Guitar.ff.sulB.C4B4.wav",
   "Guitar.ff.sulB.C5Gb5.wav",
   "Guitar.ff.sulD.C4Ab4.wav",
   "Guitar.ff.sulD.D3B3.wav",
   "Guitar.ff.sulE.C3B3.wav",
   "Guitar.ff.sulE.E2B2.wav",
   "Guitar.ff.sulG.C4B4.wav",
   "Guitar.ff.sulG.C5Db5.wav",
   "Guitar.ff.sulG.G3B3.wav",
   "Guitar.mf.sul_E.C5Bb5.wav",
   "Guitar.mf.sul_E.E4B4.wav",
   "Guitar.mf.sulA.A2B2.wav",
   "Guitar.mf.sulA.C3B3.wav",
   "Guitar.mf.sulA.C4E4.wav"]

/-- Candidate parses of one note (letter, optional accidental, digit) with
the case-insensitive character classes of the guitar regexes, listed in the
regex backtracking order: the greedy parse that consumes an accidental comes
first.  Each parse returns the matched text and the remaining characters. -/
def noteParsesCI : List Char → List (String × List Char)
  | l :: a :: d :: rest =>
    (if isNoteLetterCI l && isAccidentalCI a && d.isDigit
     then [(String.mk [l, a, d], rest)] else []) ++
    (if isNoteLetterCI l && a.isDigit then [(String.mk [l, a], d :: rest)] else [])
  | [l, a] => if isNoteLetterCI l && a.isDigit then [(String.mk [l, a], [])] else []
  | _ => []

/-- Checks for a literal `.wav` (case-insensitively, per the `/i` flag)
followed by the end of the string — the end anchor of the guitar regexes. -/
def isDotWavEnd : List Char → Bool
  | ['.', w, a, v] => w.toLower = 'w' && a.toLower = 'a' && v.toLower = 'v'
  | _ => false

/-- Attempts the guitar range pattern (dot, note, note, `.wav`, end) at the
head of the character list. -/
def guitarRangeAt : List Char → Option (String × String)
  | '.' :: rest =>
    (noteParsesCI rest).findSome? fun p =>
      (noteParsesCI p.2).findSome? fun q =>
        if isDotWavEnd q.2 then some (p.1, q.1) else none
  | _ => none

/-- Attempts the guitar single-note pattern (dot, note, `.wav`, end) at the
head of the character list. -/
def guitarSingleAt : List Char → Option String
  | '.' :: rest =>
    (noteParsesCI rest).findSome? fun p =>
      if isDotWavEnd p.2 then some p.1 else none
  | _ => none

/-- Leftmost-match scan for the guitar range pattern. -/
def findGuitarRange : List Char → Option (String × String)
  | [] => none
  | c :: rest =>
    match guitarRangeAt (c :: rest) with
    | some r => some r
    | none => findGuitarRange rest

/-- Leftmost-match scan for the guitar single-note pattern. -/
def findGuitarSingle : List Char → Option String
  | [] => none
  | c :: rest =>
    match guitarSingleAt (c :: rest) with
    | some r => some r
    | none => findGuitarSingle rest

/-- Parse result of a guitar filename: `{ startMidi, endMidi, isRange }`. -/
structure GuitarRangeInfo where
  startMidi : ℤ
  endMidi : ℤ
  isRange : Bool
deriving DecidableEq

/-- Embeds `parseGuitarRangeFromFilename(filename)` from app.js (lines
266-291).  The function first tries the range form; if the range regex
matches but a note fails to convert it returns null without trying the
single-note form, exactly as the source does.  (The source also computes a
local `base` string that it never uses; that dead assignment is omitted.) -/
def parseGuitarRangeFromFilename (filename : String) : Option GuitarRangeInfo :=
  match findGuitarRange filename.toList with
  | some (s, e) =>
    match noteNameToMidi s, noteNameToMidi e with
    | some startMidi, some endMidi =>
      some { startMidi := startMidi, endMidi := endMidi, isRange := true }
    | _, _ => none
  | none =>
    match findGuitarSingle filename.toList with
    | some n => (noteNameToMidi n).map fun m =>
        { startMidi := m, endMidi := m, isRange := false }
    | none => none

/-- Guitar sample entry: `{ startMidi, endMidi, isRange, buffer, file }` in
app.js, with the decoded buffer abstracted to its duration. -/
structure GuitarSample where
  startMidi : ℤ
  endMidi : ℤ
  isRange : Bool
  bufferDuration : ℚ
  file : String
deriving DecidableEq

/-- Embeds `loadGuitarSamples` from app.js (lines 296-327) under the
assumption that every fetch succeeds; `decodeDuration` abstracts the decoder.
Entries are pushed in `GUITAR_FILES` order with `min`/`max` normalisation of
the endpoints — note that, unlike the flute loader, no sort is performed. -/
def loadGuitarSamples (decodeDuration : String → ℚ) : List GuitarSample :=
  GUITAR_FILES.filterMap fun file =>
    (parseGuitarRangeFromFilename file).map fun info =>
      { startMidi := min info.startMidi info.endMidi
        endMidi := max info.startMidi info.endMidi
        isRange := info.isRange
        bufferDuration := decodeDuration file
        file := file }

/-- Embeds the closest-midpoint fallback scan of `findBestGuitarSample`. -/
def midpointScan (target : ℚ) : GuitarSample → ℚ → List GuitarSample → GuitarSample
  | best, _, [] => best
  | best, bestDist, s :: rest =>
    let mid := ((s.startMidi : ℚ) + (s.endMidi : ℚ)) / 2
    let d := |mid - target|
    if d < bestDist then midpointScan target s d rest
    else midpointScan target best bestDist rest

/-- Embeds `findBestGuitarSample(targetMidi)` from app.js (lines 329-355):
among entries whose range contains the target take the one with the
tightest span (JS stable sort by span, then element 0, modelled by the
stable `insertionSort`); otherwise scan for the entry whose range midpoint is
closest to the target. -/
def findBestGuitarSample (samples : List GuitarSample) (targetMidi : ℤ) :
    Option GuitarSample :=
  match samples with
  | [] => none
  | b :: rest =>
    let containing := samples.filter fun s =>
      targetMidi ≥ s.startMidi && targetMidi ≤ s.endMidi
    match (containing.insertionSort fun x y =>
        x.endMidi - x.startMidi ≤ y.endMidi - y.startMidi).head? with
    | some s => some s
    | none =>
      some (midpointScan (targetMidi : ℚ) b
        (|((b.startMidi : ℚ) + (b.endMidi : ℚ)) / 2 - (targetMidi : ℚ)|) rest)

/-- Scheduling parameters a guitar one-shot applies to its buffer source and
gain node: playback rate, seek offset, slice duration and gain peak. -/
structure GuitarOneShotPlan where
  sampleFile : String
  rate : ℚ
  offset : ℚ
  sliceDur : ℚ
  peak : ℚ
deriving DecidableEq

/-- Embeds `playGuitarOneShot(targetMidi, {when, velocity})` from app.js
(lines 436-477).  The function never assigns `src.playbackRate`, so the
source keeps the WebAudio default rate of 1.0, recorded as `rate := 1`; for
a range recording it instead seeks to the target's semitone segment
(`offset = idx * seg`) and plays a bounded slice. -/
def playGuitarOneShot (samples : List GuitarSample) (targetMidi : ℤ)
    (velocity : ℚ) : Option GuitarOneShotPlan :=
  (findBestGuitarSample samples targetMidi).map fun sample =>
    let od : ℚ × ℚ :=
      if sample.isRange && sample.endMidi > sample.startMidi then
        let semis : ℤ := (sample.endMidi - sample.startMidi) + 1
        let seg : ℚ := sample.bufferDuration / (semis : ℚ)
        let idx : ℚ := clamp ((targetMidi : ℚ) - (sample.startMidi : ℚ)) 0 ((semis : ℚ) - 1)
        (idx * seg, clamp (seg * 1.4) 0.12 0.9)
      else (0, 0.75)
    { sampleFile := sample.file
      rate := 1
      offset := od.1
      sliceDur := od.2
      peak := clamp velocity 0.05 1 }

/-! Voice engine state for the sustained (non-guitar) path. -/

/-- Exact value of a stored frequency or playback rate, kept symbolically as
`coeff * 2 ^ exponent` with rational components so that the voice table stays
computable; every number the sustained path stores
(`440 * 2^((midi-69)/12)` and `2^((midi - sample.midi)/12)`) has this form. -/
structure Pow2 where
  coeff : ℚ
  exponent : ℚ
deriving DecidableEq

/-- One sounding unit of a voice, `{ src, gain, baseRate, kind, baseFreq }`
in app.js; the WebAudio node handles are abstracted away and the numeric
fields the vibrato loop later reads are kept. -/
structure VoiceNode where
  kind : String
  baseRate : Option Pow2
  baseFreq : Option Pow2
deriving DecidableEq

/-- A tracked voice: the value stored in the `activeVoices` map. -/
structure Voice where
  nodes : List VoiceNode
deriving DecidableEq

/-- The mutable engine state that `startSustainedMidiForNonGuitar` touches:
`isStarted`, the loaded flute library and the `activeVoices` map.  The map
is modelled as an association list in insertion order (JS `Map` preserves
insertion order). -/
structure EngineState where
  isStarted : Bool
  fluteSamples : List FluteSample
  activeVoices : List (String × Voice)

/-- Embeds `startSustainedMidiForNonGuitar(midi, voiceId, velocity)` from
app.js (lines 633-683).  It bails out when audio is not started, is a no-op
when `voiceId` is already present, and otherwise inserts a single-node voice:
a sine oscillator at `440·2^((midi-69)/12)` Hz, or for the non-sine branch a
looping playback of the nearest flute sample at rate
`2^((midi - sample.midi)/12)` (no entry is made when the library has no
sample).  `velocity` only shapes the gain ramp of the created gain node. -/
def startSustainedMidiForNonGuitar (st : EngineState) (inst : Instrument)
    (midi : ℤ) (voiceId : String) (velocity : ℚ) : EngineState :=
  let _ := velocity
  if !st.isStarted then st
  else if (st.activeVoices.lookup voiceId).isSome then st
  else if inst = Instrument.sine then
    let freq : Pow2 := Pow2.mk 440 (((midi : ℚ) - 69) / 12)
    { st with activeVoices := st.activeVoices ++
        [(voiceId, Voice.mk [VoiceNode.mk "osc" none (some freq)])] }
  else
    match findNearestFluteSample st.fluteSamples midi with
    | none => st
    | some sample =>
      let baseRate : Pow2 := Pow2.mk 1 (((midi : ℚ) - (sample.midi : ℚ)) / 12)
      { st with activeVoices := st.activeVoices ++
          [(voiceId, Voice.mk [VoiceNode.mk "sample" (some baseRate) none])] }

/-- Number of entries stored under a given voice id. -/
def voiceCount (voiceId : String) (voices : List (String × Voice)) : ℕ :=
  (voices.filter fun p => p.1 == voiceId).length

/-! Controller state machine: the flex (bend) channel of firmware.ino. -/

/-- Embeds `FLEX_ON_THRESHOLD` from firmware.ino. -/
def FLEX_ON_THRESHOLD : ℤ := 2300

/-- Embeds `FLEX_OFF_THRESHOLD` from firmware.ino. -/
def FLEX_OFF_THRESHOLD : ℤ := 2000

/-- Embeds one call of `readFlexAndMaybeSend()` from firmware.ino (lines
288-305) with the analog read made explicit: given the Schmitt-trigger state
`flexActive` and the fresh raw reading, returns the new state together with
whether the one `cycle_mode` event was sent (the body of
`if (!wasActive && flexActive)`). -/
def readFlexAndMaybeSend (onThreshold offThreshold : ℤ) (flexActive : Bool)
    (flexRaw : ℤ) : Bool × Bool :=
  let wasActive := flexActive
  let newActive :=
    if !flexActive && flexRaw ≥ onThreshold then true
    else if flexActive && flexRaw ≤ offThreshold then false
    else flexActive
  (newActive, !wasActive && newActive)

/-- Iterates `readFlexAndMaybeSend` over a sequence of raw readings,
collecting the emitted events. -/
def runFlex (onThreshold offThreshold : ℤ) : Bool → List ℤ → Bool × List Bool
  | a, [] => (a, [])
  | a, r :: rs =>
    let s := readFlexAndMaybeSend onThreshold offThreshold a r
    let rest := runFlex onThreshold offThreshold s.1 rs
    (rest.1, s.2 :: rest.2)

/-! Play-mode cycling. -/

/-- Embeds the `order` array of `applyFlexCycleMode` in app.js. -/
def MODE_ORDER : List String := ["single", "arp", "chord"]

/-- JavaScript `Array.prototype.indexOf`: the index of the first occurrence,
or -1 when the element is absent. -/
def jsIndexOf (l : List String) (x : String) : ℤ :=
  if x ∈ l then (l.indexOf x : ℤ) else -1

/-- Embeds `applyFlexCycleMode()` from app.js (lines 873-884) on the current
play-mode string: `order[(order.indexOf(cur) + 1) % order.length]`.  The
indexing is always in range, so the `getD` default is never used. -/
def applyFlexCycleMode (cur : String) : String :=
  let idx := jsIndexOf MODE_ORDER cur
  MODE_ORDER.getD ((idx + 1).tmod (MODE_ORDER.length : ℤ)).toNat ""

/-! Basic facts about the register-clamping loops. -/

theorem bumpUp_lower (lo x : ℤ) : lo ≤ bumpUp lo x := by
  rw [bumpUp.eq_def]
  by_cases h : x < lo
  · simp only [h, if_true]
    exact bumpUp_lower lo (x + 12)
  · simp only [h, if_false]
    omega
termination_by (lo - x).toNat
decreasing_by omega

theorem bumpUp_of_ge (lo x : ℤ) (h : lo ≤ x) : bumpUp lo x = x := by
  rw [bumpUp.eq_def]
  simp only [if_neg (by omega : ¬x < lo)]

theorem bumpUp_lt_upper (lo x : ℤ) (h : x < lo) : bumpUp lo x ≤ lo + 11 := by
  rw [bumpUp.eq_def]
  simp only [h, if_true]
  by_cases h2 : x + 12 < lo
  · exact bumpUp_lt_upper lo (x + 12) h2
  · rw [bumpUp_of_ge lo (x + 12) (by omega)]
    omega
termination_by (lo - x).toNat
decreasing_by omega

theorem bumpDown_upper (hi y : ℤ) : bumpDown hi y ≤ hi := by
  rw [bumpDown.eq_def]
  by_cases h : y > hi
  · simp only [h, if_true]
    exact bumpDown_upper hi (y - 12)
  · simp only [h, if_false]
    omega
termination_by (y - hi).toNat
decreasing_by omega

theorem bumpDown_of_le (hi y : ℤ) (h : y ≤ hi) : bumpDown hi y = y := by
  rw [bumpDown.eq_def]
  simp only [if_neg (by omega : ¬y > hi)]

theorem bumpDown_gt_lower (hi y : ℤ) (h : y > hi) : hi - 11 ≤ bumpDown hi y := by
  rw [bumpDown.eq_def]
  simp only [h, if_true]
  by_cases h2 : y - 12 > hi
  · exact bumpDown_gt_lower hi (y - 12) h2
  · rw [bumpDown_of_le hi (y - 12) (by omega)]
    omega
termination_by (y - hi).toNat
decreasing_by omega

/-- Combined register clamp: when the register spans at least 11 semitones the
result of the two while loops lies in `[lo, hi]`. -/
theorem bump_bounds (lo hi x : ℤ) (h : lo + 11 ≤ hi) :
    lo ≤ bumpDown hi (bumpUp lo x) ∧ bumpDown hi (bumpUp lo x) ≤ hi := by
  have h1 := bumpUp_lower lo x
  refine ⟨?_, bumpDown_upper hi (bumpUp lo x)⟩
  by_cases h2 : bumpUp lo x ≤ hi
  · rw [bumpDown_of_le hi (bumpUp lo x) h2]
    exact h1
  · have := bumpDown_gt_lower hi (bumpUp lo x) (by omega)
    omega

theorem liftAbove_gt (base t : ℤ) : base < liftAbove base t := by
  rw [liftAbove.eq_def]
  by_cases h : t ≤ base
  · simp only [h, if_true]
    exact liftAbove_gt base (t + 12)
  · simp only [h, if_false]
    omega
termination_by (base + 1 - t).toNat
decreasing_by omega

theorem liftAbove_of_gt (base t : ℤ) (h : base < t) : liftAbove base t = t := by
  rw [liftAbove.eq_def]
  simp only [if_neg (by omega : ¬t ≤ base)]

/-! Claim C1.  The spec example asserts that in C major with the sine timbre
degree 1 maps to pitch 60 named "C4" and the degree-1 chord is [60, 64, 67].
The code produces pitch 48: `baseOctave = 4` makes the raw pitch
`4*12 + 0 + 0 = 48`, which already lies inside the sine register [48, 84],
and `midiToNoteName` names it "C3". -/

/-- Claim C1, counterexample: in C major (tonic pitch class 0) with the sine
timbre, `degreeToMidi` sends degree 1 to 48, not to 60 as the spec example
states. -/
theorem c1_counterexample : degreeToMidi 0 Mode.major Instrument.sine 1 ≠ 60 := by
  have : degreeToMidi 0 Mode.major Instrument.sine 1 = 48 := by
    simp only [degreeToMidi, registerBounds, SCALE_INTERVALS]
    rw [bumpUp_of_ge _ _ (by decide), bumpDown_of_le _ _ (by decide)]
    decide
  omega

/-- Claim C1, amended: in key C major with the sine timbre, degree 1 maps to
pitch 48 with note name "C3", and the chord built on degree 1 has tones
[48, 52, 55]. -/
theorem c1_amended :
    degreeToMidi 0 Mode.major Instrument.sine 1 = 48 ∧
    midiToNoteName 48 = "C3" ∧
    ∀ v : ℚ, startChord 0 Mode.major Instrument.sine 1 v =
      Except.ok ([48, 52, 55], 48, "C3") := by
  have hd1 : degreeToMidi 0 Mode.major Instrument.sine 1 = 48 := by
    simp only [degreeToMidi, registerBounds, SCALE_INTERVALS]
    rw [bumpUp_of_ge _ _ (by decide), bumpDown_of_le _ _ (by decide)]
    decide
  have hd3 : degreeToMidi 0 Mode.major Instrument.sine 3 = 52 := by
    simp only [degreeToMidi, registerBounds, SCALE_INTERVALS]
    rw [bumpUp_of_ge _ _ (by decide), bumpDown_of_le _ _ (by decide)]
    decide
  have hd5 : degreeToMidi 0 Mode.major Instrument.sine 5 = 55 := by
    simp only [degreeToMidi, registerBounds, SCALE_INTERVALS]
    rw [bumpUp_of_ge _ _ (by decide), bumpDown_of_le _ _ (by decide)]
    decide
  have hoff2 : degreeToMidiOffset 0 Mode.major Instrument.sine 1 2 = 52 := by
    simp only [degreeToMidiOffset]
    norm_num [hd1, hd3]
    rw [liftAbove_of_gt _ _ (by norm_num)]
  have hoff4 : degreeToMidiOffset 0 Mode.major Instrument.sine 1 4 = 55 := by
    simp only [degreeToMidiOffset]
    norm_num [hd1, hd5]
    rw [liftAbove_of_gt _ _ (by norm_num)]
  refine ⟨hd1, by decide, fun v => ?_⟩
  simp only [startChord, hd1, hoff2, hoff4]
  rw [if_neg (by decide : ¬(Instrument.sine = Instrument.guitar))]
  have hname : midiToNoteName 48 = "C3" := by decide
  rw [hname]
  norm_num

/-- Claim C2: triggering chord mode with the guitar (percussive) timbre.  The
source declares `const root = degreeToMidi(degree)` and then executes
`root -= 12` inside the guitar branch, which throws a TypeError (assignment
to a constant variable) for every degree and velocity, so no one-shot ever
fires and no last-played note is returned; the spec describes the clearly
intended behaviour (three one-shots an octave down at velocity·0.65). -/
theorem c2_guitar_chord_throws :
    ∀ (tonicPc : ℤ) (mode : Mode) (degree : ℤ) (velocity : ℚ),
      startChord tonicPc mode Instrument.guitar degree velocity =
        Except.error JsError.typeErrorConstAssignment := by
  intro tonicPc mode degree velocity
  simp [startChord]

/-- Claim C4: for every degree in [1, 8], every key (tonic appearing in
`NOTE_TO_PC`) and mode, and every instrument, `degreeToMidi` returns a pitch
within the instrument's configured [minMidi, maxMidi] register bounds. -/
theorem c4_register_bounds :
    ∀ (tonic : String) (pc : ℤ), (tonic, pc) ∈ NOTE_TO_PC →
    ∀ (mode : Mode) (inst : Instrument) (degree : ℤ),
      1 ≤ degree → degree ≤ 8 →
      (registerBounds inst).2.1 ≤ degreeToMidi pc mode inst degree ∧
      degreeToMidi pc mode inst degree ≤ (registerBounds inst).2.2 := by
  intro tonic pc _ mode inst degree _ _
  have hspan : (registerBounds inst).2.1 + 11 ≤ (registerBounds inst).2.2 := by
    cases inst <;> norm_num [registerBounds]
  simpa only [degreeToMidi] using
    bump_bounds (registerBounds inst).2.1 (registerBounds inst).2.2 _ hspan

/-- Claim C4, witness: degree 1 of C major on the sine register. -/
theorem c4_register_bounds_witness :
    ("C", (0 : ℤ)) ∈ NOTE_TO_PC ∧ (1 : ℤ) ≤ 1 ∧ (1 : ℤ) ≤ 8 ∧
    (registerBounds Instrument.sine).2.1 ≤ degreeToMidi 0 Mode.major Instrument.sine 1 ∧
    degreeToMidi 0 Mode.major Instrument.sine 1 ≤ (registerBounds Instrument.sine).2.2 :=
  ⟨by decide, by decide, by decide,
    c4_register_bounds "C" 0 (by decide) Mode.major Instrument.sine 1
      (by decide) (by decide)⟩

/-- Claim C5: for every degree, key and mode (and instrument register), the
chord third minus the chord root computed by `triggerArp` is at least 4
semitones after the `if (third - root < 4) third += 12` correction. -/
theorem c5_third_at_least_4 :
    ∀ (tonicPc : ℤ) (mode : Mode) (inst : Instrument) (degree : ℤ),
      4 ≤ (triggerArpChordNotes tonicPc mode inst degree).getD 1 0 -
          (triggerArpChordNotes tonicPc mode inst degree).getD 0 0 := by
  intro tonicPc mode inst degree
  have hgt := liftAbove_gt (degreeToMidi tonicPc mode inst degree)
    (degreeToMidi tonicPc mode inst (degree + 2))
  simp only [triggerArpChordNotes, degreeToMidiOffset]
  norm_num
  split <;> omega


theorem nearestScan_spec (t : ℤ) (rest : List FluteSample) :
    ∀ best : FluteSample,
      ∃ l1 l2,
        best :: rest = l1 ++ nearestScan t best (fluteDist t best) rest :: l2 ∧
        (∀ s ∈ l1, fluteDist t (nearestScan t best (fluteDist t best) rest) < fluteDist t s) ∧
        (∀ s ∈ best :: rest, fluteDist t (nearestScan t best (fluteDist t best) rest) ≤ fluteDist t s) := by
  induction rest with
  | nil =>
    intro best
    refine ⟨[], [], by simp [nearestScan], by simp, ?_⟩
    intro s hs
    simp only [List.mem_singleton] at hs
    simp [hs, nearestScan]
  | cons hd tl ih =>
    intro best
    by_cases hlt : fluteDist t hd < fluteDist t best
    · have hstep : nearestScan t best (fluteDist t best) (hd :: tl) =
          nearestScan t hd (fluteDist t hd) tl := by
        simp only [nearestScan]
        rw [if_pos hlt]
      obtain ⟨l1, l2, heq, hstrict, hmin⟩ := ih hd
      rw [hstep]
      refine ⟨best :: l1, l2, ?_, ?_, ?_⟩
      · simpa using heq
      · intro s hs
        rcases List.mem_cons.mp hs with rfl | hs
        · exact lt_of_le_of_lt (hmin hd (by simp)) hlt
        · exact hstrict s hs
      · intro s hs
        rcases List.mem_cons.mp hs with rfl | hs
        · exact le_of_lt (lt_of_le_of_lt (hmin hd (by simp)) hlt)
        · exact hmin s hs
    · have hstep : nearestScan t best (fluteDist t best) (hd :: tl) =
          nearestScan t best (fluteDist t best) tl := by
        simp only [nearestScan]
        rw [if_neg hlt]
      obtain ⟨l1, l2, heq, hstrict, hmin⟩ := ih best
      rw [hstep]
      have hbest_le_hd :
          fluteDist t (nearestScan t best (fluteDist t best) tl) ≤ fluteDist t hd :=
        le_trans (hmin best (by simp)) (not_lt.mp hlt)
      cases l1 with
      | nil =>
        simp only [List.nil_append] at heq
        injection heq with hb htl2
        refine ⟨[], hd :: l2, ?_, by simp, ?_⟩
        · rw [List.nil_append, ← hb, htl2]
        · intro s hs
          rcases List.mem_cons.mp hs with rfl | hs
          · exact hmin s (by simp)
          · rcases List.mem_cons.mp hs with rfl | hs
            · exact hbest_le_hd
            · exact hmin s (by simp [hs])
      | cons k l1b =>
        rw [List.cons_append] at heq
        injection heq with hk htl2
        subst hk
        refine ⟨best :: hd :: l1b, l2, ?_, ?_, ?_⟩
        · conv_lhs => rw [htl2]
          simp
        · intro s hs
          rcases List.mem_cons.mp hs with rfl | hs
          · exact hstrict s (by simp)
          · rcases List.mem_cons.mp hs with rfl | hs
            · exact lt_of_lt_of_le (hstrict best (by simp)) (not_lt.mp hlt)
            · exact hstrict s (by simp [hs])
        · intro s hs
          rcases List.mem_cons.mp hs with rfl | hs
          · exact hmin s (by simp)
          · rcases List.mem_cons.mp hs with rfl | hs
            · exact hbest_le_hd
            · exact hmin s (by simp [hs])


/-- Claim C7: `findNearestFluteSample` returns an entry minimizing
|pitch - target| with ties broken in favor of the first entry in the stored
(ascending-pitch) order — every entry strictly before the result is strictly
farther — and returns none exactly on the empty library. -/
theorem c7_nearestSingle (samples : List FluteSample) (targetMidi : ℤ) :
    (samples = [] → findNearestFluteSample samples targetMidi = none) ∧
    (∀ r, findNearestFluteSample samples targetMidi = some r →
      (∀ s ∈ samples, fluteDist targetMidi r ≤ fluteDist targetMidi s) ∧
      ∃ l1 l2, samples = l1 ++ r :: l2 ∧
        ∀ s ∈ l1, fluteDist targetMidi r < fluteDist targetMidi s) ∧
    (samples ≠ [] → (findNearestFluteSample samples targetMidi).isSome) := by
  refine ⟨?_, ?_, ?_⟩
  · intro h
    subst h
    rfl
  · intro r hr
    cases samples with
    | nil => simp [findNearestFluteSample] at hr
    | cons b rest =>
      simp only [findNearestFluteSample, Option.some.injEq] at hr
      obtain ⟨l1, l2, heq, hstrict, hmin⟩ := nearestScan_spec targetMidi rest b
      rw [hr] at heq hstrict hmin
      exact ⟨fun s hs => hmin s hs, l1, l2, heq, hstrict⟩
  · intro h
    cases samples with
    | nil => exact absurd rfl h
    | cons b rest => simp [findNearestFluteSample]

/-- Claim C7, witness: a two-entry library with a tie at distance 1; the
lower-pitch (first) entry wins. -/
theorem c7_nearestSingle_witness :
    ([⟨59, "a"⟩, ⟨61, "b"⟩] : List FluteSample) ≠ [] ∧
    findNearestFluteSample [⟨59, "a"⟩, ⟨61, "b"⟩] 60 = some ⟨59, "a"⟩ ∧
    ((∀ s ∈ ([⟨59, "a"⟩, ⟨61, "b"⟩] : List FluteSample),
        fluteDist 60 ⟨59, "a"⟩ ≤ fluteDist 60 s) ∧
      ∃ l1 l2, ([⟨59, "a"⟩, ⟨61, "b"⟩] : List FluteSample) = l1 ++ ⟨59, "a"⟩ :: l2 ∧
        ∀ s ∈ l1, fluteDist 60 ⟨59, "a"⟩ < fluteDist 60 s) :=
  ⟨by decide, by decide,
    (c7_nearestSingle [⟨59, "a"⟩, ⟨61, "b"⟩] 60).2.1 ⟨59, "a"⟩ (by decide)⟩

/-- Claim C6, counterexample: the guitar library as built (all fetches
succeeding, here with unit buffer durations) is not sorted ascending by start
pitch — the first two entries already descend (72 then 64). -/
theorem c6_counterexample :
    ¬ List.Sorted (· ≤ ·) ((loadGuitarSamples fun _ => 1).map (·.startMidi)) := by
  decide

/-- Claim C6, amended: the flute library is sorted ascending by pitch, while
the guitar library keeps exactly the `GUITAR_FILES` descriptor order (no
sort is applied), which is not ascending by start pitch.  Both are immutable
values after the build. -/
theorem c6_amended :
    List.Sorted (fun a b => a.midi ≤ b.midi) loadFluteSamples ∧
    ∀ decodeDuration : String → ℚ,
      (loadGuitarSamples decodeDuration).map (·.file) = GUITAR_FILES ∧
      ¬ List.Sorted (· ≤ ·) ((loadGuitarSamples decodeDuration).map (·.startMidi)) := by
  refine ⟨by decide, ?_⟩
  intro decodeDuration
  constructor
  · rfl
  · have h : (loadGuitarSamples decodeDuration).map (·.startMidi) =
        [72, 64, 45, 48, 60, 59, 60, 72, 60, 50, 48, 40, 60, 72, 55, 72, 64, 45, 48, 60] := rfl
    rw [h]
    decide

/-- Claim C3, counterexample: a range sample spanning pitches 40-64 (midpoint
52) matched at target 64 is played with rate 1 — `playGuitarOneShot` never
assigns `playbackRate` — whereas the claimed formula gives
`2^((64 - 52)/12) = 2`. -/
theorem c3_counterexample :
    playGuitarOneShot [⟨40, 64, true, 5, "g"⟩] 64 (9 / 10) =
      some ⟨"g", 1, 24 / 5, 7 / 25, 9 / 10⟩ ∧
    ((1 : ℚ) : ℝ) ≠ (2 : ℝ) ^ (((64 : ℝ) - (40 + 64) / 2) / 12) := by
  constructor
  · simp only [playGuitarOneShot, findBestGuitarSample, midpointScan, clamp, jsMax, jsMin]
    norm_num
  · have h1 : ((64 : ℝ) - (40 + 64) / 2) / 12 = 1 := by norm_num
    rw [h1, Real.rpow_one]
    norm_num

/-- Claim C3, amended: every guitar one-shot, range-matched or not, applies
playback rate 1 to its source (the default; the function never sets it);
pitch selection for range recordings is instead done by seeking into the
chromatic-run buffer. -/
theorem c3_amended (samples : List GuitarSample) (targetMidi : ℤ) (velocity : ℚ)
    (p : GuitarOneShotPlan)
    (hp : playGuitarOneShot samples targetMidi velocity = some p) : p.rate = 1 := by
  simp only [playGuitarOneShot, Option.map_eq_some'] at hp
  obtain ⟨s, hs, hmk⟩ := hp
  rw [← hmk]

/-- Claim C3, amended witness: the same concrete library evaluated. -/
theorem c3_amended_witness :
    playGuitarOneShot [⟨40, 64, true, 5, "g"⟩] 64 (9 / 10) =
      some ⟨"g", 1, 24 / 5, 7 / 25, 9 / 10⟩ ∧
    (⟨"g", 1, 24 / 5, 7 / 25, 9 / 10⟩ : GuitarOneShotPlan).rate = 1 := by
  have hp : playGuitarOneShot [⟨40, 64, true, 5, "g"⟩] 64 (9 / 10) =
      some ⟨"g", 1, 24 / 5, 7 / 25, 9 / 10⟩ := by
    simp only [playGuitarOneShot, findBestGuitarSample, midpointScan, clamp, jsMax, jsMin]
    norm_num
  exact ⟨hp, c3_amended [⟨40, 64, true, 5, "g"⟩] 64 (9 / 10) _ hp⟩


theorem startSustained_noop_of_present (st : EngineState) (inst : Instrument)
    (midi : ℤ) (voiceId : String) (velocity : ℚ)
    (h : (List.lookup voiceId st.activeVoices).isSome) :
    startSustainedMidiForNonGuitar st inst midi voiceId velocity = st := by
  unfold startSustainedMidiForNonGuitar
  by_cases hs : st.isStarted
  · simp [hs, h]
  · simp [hs]

theorem lookup_eq_none_of_voiceCount_zero (voiceId : String) (l : List (String × Voice))
    (h : voiceCount voiceId l = 0) : List.lookup voiceId l = none := by
  induction l with
  | nil => rfl
  | cons hd tl ih =>
    obtain ⟨k, v⟩ := hd
    by_cases hk : k = voiceId
    · exfalso
      subst hk
      simp [voiceCount, List.filter_cons] at h
    · have htl : voiceCount voiceId tl = 0 := by
        simpa [voiceCount, List.filter_cons, hk] using h
      have hbeq : (voiceId == k) = false := by
        simp [hk]
        exact fun hkk => hk hkk.symm
      simp [List.lookup, hbeq, ih htl]

theorem voiceCount_append_self (voiceId : String) (l : List (String × Voice)) (v : Voice) :
    voiceCount voiceId (l ++ [(voiceId, v)]) = voiceCount voiceId l + 1 := by
  simp [voiceCount, List.filter_append]

/-- Claim C8: calling `startSustainedMidiForNonGuitar` twice with the same
voice id before any stop leaves exactly one entry under that id — the second
call returns the state of the first call unchanged (for any arguments), and
when the first call did create the voice the id occurs exactly once. -/
theorem c8_startSustained_idempotent
    (st : EngineState) (inst : Instrument) (midi : ℤ) (voiceId : String) (velocity : ℚ)
    (inst2 : Instrument) (midi2 : ℤ) (velocity2 : ℚ) :
    ((List.lookup voiceId
        (startSustainedMidiForNonGuitar st inst midi voiceId velocity).activeVoices).isSome →
      startSustainedMidiForNonGuitar
          (startSustainedMidiForNonGuitar st inst midi voiceId velocity)
          inst2 midi2 voiceId velocity2 =
        startSustainedMidiForNonGuitar st inst midi voiceId velocity) ∧
    (voiceCount voiceId st.activeVoices = 0 →
      (List.lookup voiceId
        (startSustainedMidiForNonGuitar st inst midi voiceId velocity).activeVoices).isSome →
      voiceCount voiceId
        (startSustainedMidiForNonGuitar st inst midi voiceId velocity).activeVoices = 1) := by
  constructor
  · intro h
    exact startSustained_noop_of_present _ _ _ _ _ h
  · intro hc hsome
    have hnone := lookup_eq_none_of_voiceCount_zero voiceId st.activeVoices hc
    by_cases hs : st.isStarted
    · by_cases hi : inst = Instrument.sine
      · have hact : (startSustainedMidiForNonGuitar st inst midi voiceId velocity).activeVoices =
            st.activeVoices ++ [(voiceId, Voice.mk [VoiceNode.mk "osc" none
              (some (Pow2.mk 440 (((midi : ℚ) - 69) / 12)))])] := by
          unfold startSustainedMidiForNonGuitar
          simp [hs, hnone, hi]
        rw [hact, voiceCount_append_self, hc]
      · cases hf : findNearestFluteSample st.fluteSamples midi with
        | none =>
          exfalso
          have heq : startSustainedMidiForNonGuitar st inst midi voiceId velocity = st := by
            unfold startSustainedMidiForNonGuitar
            simp [hs, hnone, hi, hf]
          rw [heq, hnone] at hsome
          simp at hsome
        | some sample =>
          have hact : (startSustainedMidiForNonGuitar st inst midi voiceId velocity).activeVoices =
              st.activeVoices ++ [(voiceId, Voice.mk [VoiceNode.mk "sample"
                (some (Pow2.mk 1 (((midi : ℚ) - (sample.midi : ℚ)) / 12))) none])] := by
            unfold startSustainedMidiForNonGuitar
            simp [hs, hnone, hi, hf]
          rw [hact, voiceCount_append_self, hc]
    · exfalso
      have heq : startSustainedMidiForNonGuitar st inst midi voiceId velocity = st := by
        unfold startSustainedMidiForNonGuitar
        simp [hs]
      rw [heq, hnone] at hsome
      simp at hsome

/-- Claim C8, witness: starting `single-3` twice on a fresh started engine. -/
theorem c8_startSustained_idempotent_witness :
    (List.lookup "single-3"
      (startSustainedMidiForNonGuitar (EngineState.mk true [] [])
        Instrument.sine 60 "single-3" (4 / 5)).activeVoices).isSome ∧
    voiceCount "single-3" (EngineState.mk true [] []).activeVoices = 0 ∧
    startSustainedMidiForNonGuitar
        (startSustainedMidiForNonGuitar (EngineState.mk true [] [])
          Instrument.sine 60 "single-3" (4 / 5))
        Instrument.sine 60 "single-3" (4 / 5) =
      startSustainedMidiForNonGuitar (EngineState.mk true [] [])
        Instrument.sine 60 "single-3" (4 / 5) ∧
    voiceCount "single-3"
      (startSustainedMidiForNonGuitar (EngineState.mk true [] [])
        Instrument.sine 60 "single-3" (4 / 5)).activeVoices = 1 := by
  have hsome : (List.lookup "single-3"
      (startSustainedMidiForNonGuitar (EngineState.mk true [] [])
        Instrument.sine 60 "single-3" (4 / 5)).activeVoices).isSome := by
    unfold startSustainedMidiForNonGuitar
    simp [List.lookup]
  refine ⟨hsome, rfl, ?_, ?_⟩
  · exact (c8_startSustained_idempotent (EngineState.mk true [] []) Instrument.sine 60
      "single-3" (4 / 5) Instrument.sine 60 (4 / 5)).1 hsome
  · exact (c8_startSustained_idempotent (EngineState.mk true [] []) Instrument.sine 60
      "single-3" (4 / 5) Instrument.sine 60 (4 / 5)).2 rfl hsome

/-- Claim C9: the flex channel is a Schmitt trigger.  Under
`offThreshold < onThreshold`: from the inactive state a crossing to at least
`onThreshold` emits exactly one cycle event at the crossing tick (earlier
sub-threshold readings emit nothing); once active, readings above
`offThreshold` keep it active and emit nothing; a reading at or below
`offThreshold` rearms (goes inactive) without emitting. -/
theorem c9_flex_schmitt (onThreshold offThreshold : ℤ)
    (hcfg : offThreshold < onThreshold) :
    (∀ (pre : List ℤ) (r : ℤ), (∀ x ∈ pre, x < onThreshold) → onThreshold ≤ r →
      runFlex onThreshold offThreshold false (pre ++ [r]) =
        (true, List.replicate pre.length false ++ [true])) ∧
    (∀ rs : List ℤ, (∀ x ∈ rs, offThreshold < x) →
      runFlex onThreshold offThreshold true rs = (true, List.replicate rs.length false)) ∧
    (∀ r : ℤ, r ≤ offThreshold →
      readFlexAndMaybeSend onThreshold offThreshold true r = (false, false)) := by
  have _ := hcfg
  refine ⟨?_, ?_, ?_⟩
  · intro pre r hpre hr
    induction pre with
    | nil =>
      simp [runFlex, readFlexAndMaybeSend, hr]
    | cons x xs ih =>
      have hx : ¬ x ≥ onThreshold := not_le.mpr (hpre x (by simp))
      have hxs : ∀ y ∈ xs, y < onThreshold := fun y hy => hpre y (by simp [hy])
      simp only [List.cons_append, runFlex, readFlexAndMaybeSend]
      simp [hx, ih hxs, List.replicate_succ]
  · intro rs h
    induction rs with
    | nil => rfl
    | cons x xs ih =>
      have hx : ¬ x ≤ offThreshold := not_le.mpr (h x (by simp))
      have hxs : ∀ y ∈ xs, offThreshold < y := fun y hy => h y (by simp [hy])
      simp only [runFlex, readFlexAndMaybeSend]
      simp [hx, ih hxs, List.replicate_succ]
  · intro r hr
    simp [readFlexAndMaybeSend, hr]

/-- Claim C9, witness: the firmware thresholds (2300/2000) on the spec's
example sequences. -/
theorem c9_flex_schmitt_witness :
    FLEX_OFF_THRESHOLD < FLEX_ON_THRESHOLD ∧
    ((∀ x ∈ [(1900 : ℤ)], x < FLEX_ON_THRESHOLD) ∧ FLEX_ON_THRESHOLD ≤ 2400 ∧
      runFlex FLEX_ON_THRESHOLD FLEX_OFF_THRESHOLD false ([1900] ++ [2400]) =
        (true, List.replicate [(1900 : ℤ)].length false ++ [true])) ∧
    ((∀ x ∈ [(2100 : ℤ), 2050], FLEX_OFF_THRESHOLD < x) ∧
      runFlex FLEX_ON_THRESHOLD FLEX_OFF_THRESHOLD true [2100, 2050] =
        (true, List.replicate [(2100 : ℤ), 2050].length false)) ∧
    ((1900 : ℤ) ≤ FLEX_OFF_THRESHOLD ∧
      readFlexAndMaybeSend FLEX_ON_THRESHOLD FLEX_OFF_THRESHOLD true 1900 = (false, false)) := by
  have h := c9_flex_schmitt FLEX_ON_THRESHOLD FLEX_OFF_THRESHOLD (by decide)
  refine ⟨by decide, ⟨by decide, by decide, h.1 [1900] 2400 (by decide) (by decide)⟩,
    ⟨by decide, h.2.1 [2100, 2050] (by decide)⟩,
    ⟨by decide, h.2.2 1900 (by decide)⟩⟩

/-- Claim C10: `applyFlexCycleMode` cycles single to arp to chord and back to
single, three applications restore any of the three modes, and any string
outside the order array is sent to "single" (its JS `indexOf` is -1, so the
next index is 0). -/
theorem c10_cycle_mode :
    applyFlexCycleMode "single" = "arp" ∧
    applyFlexCycleMode "arp" = "chord" ∧
    applyFlexCycleMode "chord" = "single" ∧
    (∀ m ∈ MODE_ORDER, applyFlexCycleMode (applyFlexCycleMode (applyFlexCycleMode m)) = m) ∧
    (∀ m : String, m ∉ MODE_ORDER → applyFlexCycleMode m = "single") := by
  refine ⟨by decide, by decide, by decide, ?_, ?_⟩
  · intro m hm
    fin_cases hm <;> decide
  · intro m hm
    simp only [applyFlexCycleMode, jsIndexOf, if_neg hm]
    decide

/-- Claim C10, witness: the three-fold cycle at "single" and the fallback at
the non-mode string "flute". -/
theorem c10_cycle_mode_witness :
    ("single" ∈ MODE_ORDER ∧
      applyFlexCycleMode (applyFlexCycleMode (applyFlexCycleMode "single")) = "single") ∧
    ("flute" ∉ MODE_ORDER ∧ applyFlexCycleMode "flute" = "single") :=
  ⟨⟨by decide, c10_cycle_mode.2.2.2.1 "single" (by decide)⟩,
    ⟨by decide, c10_cycle_mode.2.2.2.2 "flute" (by decide)⟩⟩

end JamDeck
